import Mathlib

/-!
Shallow embedding of the M365 Accessibility Pre-Flight Check app
(`streamlit_app.py`): the per-format document models, the four check
functions (`check_docx_basic`, `check_docx_missing_alt_text`,
`check_pptx`, `check_pdf`), and the upload-processing loop that builds
the result records.  Python string primitives (`strip`, `lower`,
`startswith`, `endswith`, `join`, `str` on integers and lists) are
modelled as executable functions on `String`/`List Char`; the float
arithmetic of the PDF heading heuristic is modelled with exact
rationals.
-/

namespace PreFlight

/-- Python `str.strip()`: drop whitespace from both ends of the string. -/
def pyStrip (s : String) : String :=
  ⟨((s.data.dropWhile Char.isWhitespace).reverse.dropWhile Char.isWhitespace).reverse⟩

/-- Python `str.lower()`, modelled characterwise. -/
def pyLower (s : String) : String := ⟨s.data.map Char.toLower⟩

/-- Python `s.startswith(p)`. -/
def pyStartsWith (s p : String) : Bool := p.data.isPrefixOf s.data

/-- Python `s.endswith(p)`. -/
def pyEndsWith (s p : String) : Bool := p.data.isSuffixOf s.data

/-- Decimal digits of `n`, most significant first.  Fuel-based structural
recursion so that it reduces inside the kernel; called with enough fuel
by `natStr`. -/
def natDigitsAux : Nat → Nat → List Char
  | 0, _ => []
  | fuel+1, n =>
    if n < 10 then [Nat.digitChar n]
    else natDigitsAux fuel (n / 10) ++ [Nat.digitChar (n % 10)]

/-- Python `str(n)` for a natural number. -/
def natStr (n : Nat) : String := ⟨natDigitsAux (n + 1) n⟩

/-- Python `sep.join(strings)`. -/
def pyJoin (sep : String) : List String → String
  | [] => ""
  | [s] => s
  | s :: rest => s ++ sep ++ pyJoin sep rest

/-- The separator of Python `str([n1, n2, ...])`. -/
def commaSep : String := ", "

/-- The separator used for the `Issues` column. -/
def semiSep : String := "; "

/-- Python `str` applied to a list of ints, e.g. `[2, 5]`. -/
def pyListStr (l : List Nat) : String :=
  "[" ++ pyJoin commaSep (l.map natStr) ++ "]"

/-! ## DOCX model and checks (lines 18-76 of the source) -/

/-- One paragraph of a word-processing document: the optional style name
(`none` models a paragraph whose `style` attribute is falsy) and the text
of each run (`run.text or ""` already coerced to a string). -/
structure Paragraph where
  style : Option String
  runs : List String
deriving DecidableEq

/-- A parsed DOCX document.  `inlineShapes` is the structural
`inline_shapes` path: `some descrs` gives the per-image `docPr@descr`
attribute of every inline image, while `none` models the case where that
path raises and the `except` fallback runs.  `imageRelCount` is the
number of part relationships whose reltype mentions an image. -/
structure DocxDoc where
  paragraphs : List Paragraph
  inlineShapes : Option (List (Option String))
  imageRelCount : Nat
deriving DecidableEq

def noHeadingsMsg : String :=
  "No headings found (use Heading 1/2/3 styles for document structure)."

def vagueLinkMsg : String :=
  "Avoid vague link text like \x27click here\x27—use descriptive link text."

def headingLit : String := "Heading"

/-- The fixed disallowed set of the vague-link-text scan. -/
def vaguePhrases : List String := ["here", "click here", "read more"]

/-- Does this paragraph have a style whose name starts with `"Heading"`
(`p.style and str(p.style.name).startswith("Heading")`)? -/
def styleHeads (p : Paragraph) : Bool :=
  match p.style with
  | some s => pyStartsWith s headingLit
  | none => false

/-- `check_docx_basic` (source lines 18-35). -/
def check_docx_basic (doc : DocxDoc) : List String :=
  (if doc.paragraphs.any styleHeads then [] else [noHeadingsMsg])
  ++ doc.paragraphs.flatMap (fun p =>
      p.runs.flatMap (fun r =>
        if vaguePhrases.contains (pyLower (pyStrip r)) then [vagueLinkMsg] else []))

/-- Every run of the document in scan order (the nested
`for p in doc.paragraphs: for run in p.runs` iteration). -/
def allRuns (d : DocxDoc) : List String := d.paragraphs.flatMap Paragraph.runs

/-- How many vague-link-text findings an issue list carries. -/
def countVague (l : List String) : Nat := l.countP (fun s => s == vagueLinkMsg)

def lackAltMsg (missing total : Nat) : String :=
  natStr missing ++ " of " ++ natStr total
    ++ " image(s) appear to lack alt text. Add concise, purpose-focused descriptions (≤125 characters)."

def allAltMsg (total : Nat) : String :=
  "All " ++ natStr total ++ " image(s) have alt text. ✅"

def verifyAltDocxMsg (total : Nat) : String :=
  "Found " ++ natStr total
    ++ " image(s). Verify Alt Text for each (Right-click image → View Alt Text)."

/-- Truthiness of `descr and descr.strip()`: a non-`None` attribute with
non-whitespace content. -/
def descrPresent : Option String → Bool
  | none => false
  | some s => !(pyStrip s == "")

/-- `check_docx_missing_alt_text` (source lines 38-76).  The
`inlineShapes := none` case is the `except` fallback that counts image
relationships instead of reading `docPr@descr`. -/
def check_docx_missing_alt_text (doc : DocxDoc) : List String :=
  match doc.inlineShapes with
  | some descrs =>
    let total := descrs.length
    let missing := (descrs.filter (fun d => !descrPresent d)).length
    if total > 0 then
      if missing > 0 then [lackAltMsg missing total] else [allAltMsg total]
    else []
  | none =>
    let total := doc.imageRelCount
    if total > 0 then [verifyAltDocxMsg total] else []

/-! ## PPTX model and checks (lines 82-112 of the source) -/

/-- One shape on a slide: whether it has a text frame, the text of that
frame, and whether it counts as an image (`s.image` truthy or
`shape_type` in `{13, 14}`). -/
structure Shape where
  hasTextFrame : Bool
  text : String
  isImage : Bool
deriving DecidableEq

/-- One slide: whether `slide.shapes.title` is not `None`, and its
shapes. -/
structure Slide where
  hasTitle : Bool
  shapes : List Shape
deriving DecidableEq

structure PptxDoc where
  slides : List Slide
deriving DecidableEq

/-- A slide with no declared title and no shape carrying non-whitespace
text (`not has_title and not any_text`). -/
def slideBlank (s : Slide) : Bool :=
  !s.hasTitle
    && !(s.shapes.any (fun sh => sh.hasTextFrame && !(pyStrip sh.text == "")))

/-- The `for i, slide in enumerate(prs.slides, start=1)` collection loop
for slides without a clear title or text. -/
def missingTitlesAux : Nat → List Slide → List Nat
  | _, [] => []
  | i, s :: rest => (if slideBlank s then [i] else []) ++ missingTitlesAux (i + 1) rest

def missingTitles (p : PptxDoc) : List Nat := missingTitlesAux 1 p.slides

def emptySlidesMsg (l : List Nat) : String :=
  "Slides without a clear title/text: " ++ pyListStr l
    ++ ". Use a Title layout or add a heading."

def verifyAltPptxMsg (k : Nat) : String :=
  "Found " ++ natStr k ++ " image(s). Verify Alt Text for each (Format Picture → Alt Text)."

def contrastMsg : String :=
  "Contrast not evaluated in MVP. Aim for WCAG contrast ratio ≥ 4.5:1 for normal text."

/-- The image-counting loop over all shapes of all slides. -/
def imgCount (p : PptxDoc) : Nat :=
  ((p.slides.flatMap Slide.shapes).filter Shape.isImage).length

/-- `check_pptx` (source lines 82-112). -/
def check_pptx (p : PptxDoc) : List String :=
  (if missingTitles p = [] then [] else [emptySlidesMsg (missingTitles p)])
  ++ (if imgCount p > 0 then [verifyAltPptxMsg (imgCount p)] else [])
  ++ [contrastMsg]

/-! ## PDF model and checks (lines 118-146 of the source) -/

/-- One text span of a PDF page dictionary: its text (`s.get("text") or
""`) and its font size (`s.get("size", 0)`), modelled as an exact
rational. -/
structure Span where
  text : String
  size : ℚ
deriving DecidableEq

structure TextLine where
  spans : List Span
deriving DecidableEq

structure TextBlock where
  lines : List TextLine
deriving DecidableEq

structure PdfPage where
  blocks : List TextBlock
deriving DecidableEq

/-- A parsed PDF: its tagged-structure flag and its pages. -/
structure PdfDoc where
  isTagged : Bool
  pages : List PdfPage
deriving DecidableEq

/-- Every span of every line of every block of every page, in iteration
order. -/
def allSpans (d : PdfDoc) : List Span :=
  d.pages.flatMap (fun pg => pg.blocks.flatMap (fun b => b.lines.flatMap TextLine.spans))

/-- The spans that survive `if not text: continue`: non-whitespace text. -/
def countedSpans (d : PdfDoc) : List Span :=
  (allSpans d).filter (fun s => !(pyStrip s.text == ""))

/-- The `total` counter of the heading-density loop. -/
def totalSpans (d : PdfDoc) : Nat := (countedSpans d).length

/-- The `big` counter of the heading-density loop: spans with font size
at least 16. -/
def bigSpans (d : PdfDoc) : Nat :=
  ((countedSpans d).filter (fun s => decide ((16 : ℚ) ≤ s.size))).length

def notTaggedMsg : String :=
  "PDF is not tagged (no accessibility structure). Export with \x27Create tagged PDF\x27 enabled."

def fewHeadingsMsg : String :=
  "Few/no large text spans detected; headings may be missing. Use heading styles in the source doc."

def linkReviewMsg : String :=
  "Review links for descriptive text (avoid \x27click here\x27). Edit in source, then re-export."

/-- `check_pdf` (source lines 118-146); the float division `big / total`
of `if total and (big / total) < 0.02` is modelled with exact rationals. -/
def check_pdf (d : PdfDoc) : List String :=
  (if !d.isTagged then [notTaggedMsg] else [])
  ++ (if totalSpans d ≠ 0 ∧ (bigSpans d : ℚ) / (totalSpans d : ℚ) < 2 / 100
      then [fewHeadingsMsg] else [])
  ++ [linkReviewMsg]

/-! ## Batch orchestrator (lines 152-192 of the source) -/

/-- Failure of the document-model adapter: the raw bytes do not parse as
the declared container format. -/
inductive MalformedDocument
  | malformed
deriving DecidableEq

/-- An uploaded file: its name and the outcome of parsing its bytes
under each of the three container formats (the raw byte string is
abstracted by these three parse outcomes, which are a function of the
bytes). -/
structure UploadedFile where
  name : String
  docxParse : Except MalformedDocument DocxDoc
  pptxParse : Except MalformedDocument PptxDoc
  pdfParse : Except MalformedDocument PdfDoc

/-- A row of the results table: the file name and the findings collected
for it. -/
structure AnalysisRecord where
  file : String
  findings : List String
deriving DecidableEq

def sentinelMsg : String := "No major issues found."

def unsupportedMsg : String := "Unsupported file type."

def extDocx : String := ".docx"

def extPptx : String := ".pptx"

def extPdf : String := ".pdf"

def isDocxName (s : String) : Bool := pyEndsWith (pyLower s) extDocx

def isPptxName (s : String) : Bool := pyEndsWith (pyLower s) extPptx

def isPdfName (s : String) : Bool := pyEndsWith (pyLower s) extPdf

/-- The issue list computed by the extension dispatch (source lines
160-186).  A parse failure propagates: the loop body contains no
`try`/`except`, so nothing catches a `MalformedDocument` error. -/
def rawIssues (f : UploadedFile) : Except MalformedDocument (List String) :=
  if isDocxName f.name then
    match f.docxParse with
    | .error e => .error e
    | .ok d => .ok (check_docx_basic d ++ check_docx_missing_alt_text d)
  else if isPptxName f.name then f.pptxParse.map check_pptx
  else if isPdfName f.name then f.pdfParse.map check_pdf
  else .ok [unsupportedMsg]

/-- Source lines 188-192: sentinel substitution when no issue was found,
then record creation. -/
def processFile (f : UploadedFile) : Except MalformedDocument AnalysisRecord :=
  (rawIssues f).map (fun issues =>
    { file := f.name
      findings := if issues = [] then [sentinelMsg] else issues })

/-- The `for file in uploaded_files` loop (source lines 156-192): an
uncaught per-document error aborts the whole batch and no result list is
produced. -/
def processBatch : List UploadedFile → Except MalformedDocument (List AnalysisRecord)
  | [] => .ok []
  | f :: fs =>
    match processFile f with
    | .error e => .error e
    | .ok r =>
      match processBatch fs with
      | .error e => .error e
      | .ok rs => .ok (r :: rs)

/-- The `Issues` column of a record: `"; ".join(issues_list)`. -/
def issuesString (r : AnalysisRecord) : String := pyJoin semiSep r.findings

/-! ## Concrete example documents used to instantiate the theorems -/

/-- An upload whose bytes parse under no format; its extension routes it
to the PDF analyzer, so the parse failure surfaces there. -/
def malformedPdfFile : UploadedFile :=
  { name := "broken.pdf"
    docxParse := .error .malformed
    pptxParse := .error .malformed
    pdfParse := .error .malformed }

/-- A spreadsheet upload: its extension matches no analyzer, so none of
the parse outcomes is ever inspected. -/
def xlsxFile : UploadedFile :=
  { name := "report.xlsx"
    docxParse := .error .malformed
    pptxParse := .error .malformed
    pdfParse := .error .malformed }

/-- A DOCX with one heading-styled paragraph, no runs and no images: no
check fires, so the sentinel must be substituted. -/
def quietDocx : DocxDoc :=
  { paragraphs := [{ style := some ("Heading 1"), runs := [] }]
    inlineShapes := some []
    imageRelCount := 0 }

def quietDocxFile : UploadedFile :=
  { name := "quiet.docx"
    docxParse := .ok quietDocx
    pptxParse := .error .malformed
    pdfParse := .error .malformed }

/-- A DOCX with no heading styles whose only run properly contains a
vague phrase without being one. -/
def substringDocx : DocxDoc :=
  { paragraphs := [{ style := some ("Normal"), runs := ["please click here now"] }]
    inlineShapes := some []
    imageRelCount := 0 }

/-- A DOCX whose only run is exactly a vague phrase after trimming and
lowercasing. -/
def exactVagueDocx : DocxDoc :=
  { paragraphs := [{ style := some ("Heading 1"), runs := ["  Click Here "] }]
    inlineShapes := some []
    imageRelCount := 0 }

/-- A DOCX where the structural alt-text path raises and three image
relationships exist. -/
def fallbackDocx : DocxDoc :=
  { paragraphs := []
    inlineShapes := none
    imageRelCount := 3 }

/-- A presentation with three slides where only slide 2 lacks both a
title and non-whitespace text. -/
def threeSlidePptx : PptxDoc :=
  { slides :=
      [ { hasTitle := true, shapes := [] }
      , { hasTitle := false, shapes := [{ hasTextFrame := true, text := "   ", isImage := false }] }
      , { hasTitle := true, shapes := [] } ] }

/-- A body-text span of font size 10. -/
def smallSpan : Span := { text := "x", size := 10 }

/-- A span exactly at the large-text threshold of 16. -/
def largeSpan : Span := { text := "x", size := 16 }

/-- A single-page PDF whose one line holds the given spans. -/
def onePagePdf (spans : List Span) : PdfDoc :=
  { isTagged := true
    pages := [{ blocks := [{ lines := [{ spans := spans }] }] }] }

/-- A PDF whose large-span density is exactly 1/50 = 0.02: 49 small
spans and one span of size 16. -/
def boundaryPdf : PdfDoc := onePagePdf (List.replicate 49 smallSpan ++ [largeSpan])

/-- A PDF whose large-span density is exactly 19/1000 = 0.019: 981 small
spans and 19 spans of size 16. -/
def lowDensityPdf : PdfDoc :=
  onePagePdf (List.replicate 981 smallSpan ++ List.replicate 19 largeSpan)

/-- A PDF whose only spans carry whitespace-only text. -/
def whitespacePdf : PdfDoc :=
  onePagePdf [{ text := "  ", size := 20 }, { text := "", size := 18 }]

/-- The PDF document with whitespace-only spans removed from every line,
used to state that such spans never influence the heading-density
counters. -/
def stripWS (d : PdfDoc) : PdfDoc :=
  { isTagged := d.isTagged
    pages := d.pages.map (fun pg =>
      { blocks := pg.blocks.map (fun b =>
        { lines := b.lines.map (fun l =>
          { spans := l.spans.filter (fun s => !(pyStrip s.text == "")) }) }) }) }

/-! ## Helper lemmas: leading characters of rendered messages -/

lemma digitChar_isDigit_of_lt (k : Nat) (h : k < 10) : (Nat.digitChar k).isDigit = true := by
  revert h
  revert k
  decide

lemma natDigitsAux_ne_nil (fuel n : Nat) : natDigitsAux (fuel + 1) n ≠ [] := by
  unfold natDigitsAux
  split <;> simp

lemma natDigitsAux_head_isDigit :
    ∀ fuel n c cs, natDigitsAux fuel n = c :: cs → c.isDigit = true := by
  intro fuel
  induction fuel with
  | zero =>
    intro n c cs h
    simp [natDigitsAux] at h
  | succ fuel ih =>
    intro n c cs h
    unfold natDigitsAux at h
    split at h
    case isTrue hlt =>
      injection h with h1 _
      rw [← h1]
      exact digitChar_isDigit_of_lt n hlt
    case isFalse hge =>
      cases hrec : natDigitsAux fuel (n / 10) with
      | nil =>
        rw [hrec, List.nil_append] at h
        injection h with h1 _
        rw [← h1]
        exact digitChar_isDigit_of_lt _ (Nat.mod_lt _ (by omega))
      | cons a as =>
        rw [hrec, List.cons_append] at h
        injection h with h1 _
        rw [← h1]
        exact ih (n / 10) a as hrec

lemma natStr_head (n : Nat) :
    ∃ c cs, (natStr n).data = c :: cs ∧ c.isDigit = true := by
  cases hrec : natDigitsAux (n + 1) n with
  | nil => exact absurd hrec (natDigitsAux_ne_nil n n)
  | cons c cs =>
    refine ⟨c, cs, ?_, natDigitsAux_head_isDigit _ n c cs hrec⟩
    simpa [natStr] using hrec

lemma head?_append_of_head? (a b : String) (c : Char)
    (h : a.data.head? = some c) : (a ++ b).data.head? = some c := by
  rw [String.data_append, List.head?_append, h]
  rfl

lemma string_ne_of_head? (s t : String) (c d : Char)
    (hs : s.data.head? = some c) (ht : t.data.head? = some d) (hcd : c ≠ d) :
    s ≠ t := by
  intro he
  rw [he, ht] at hs
  exact hcd (Option.some.inj hs).symm

lemma verifyAltDocxMsg_head (k : Nat) : (verifyAltDocxMsg k).data.head? = some 'F' := by
  unfold verifyAltDocxMsg
  exact head?_append_of_head? _ _ _ (head?_append_of_head? _ _ _ (by decide))

lemma verifyAltPptxMsg_head (k : Nat) : (verifyAltPptxMsg k).data.head? = some 'F' := by
  unfold verifyAltPptxMsg
  exact head?_append_of_head? _ _ _ (head?_append_of_head? _ _ _ (by decide))

lemma allAltMsg_head (t : Nat) : (allAltMsg t).data.head? = some 'A' := by
  unfold allAltMsg
  exact head?_append_of_head? _ _ _ (head?_append_of_head? _ _ _ (by decide))

lemma emptySlidesMsg_head (l : List Nat) : (emptySlidesMsg l).data.head? = some 'S' := by
  unfold emptySlidesMsg
  exact head?_append_of_head? _ _ _ (head?_append_of_head? _ _ _ (by decide))

lemma lackAltMsg_head (m t : Nat) :
    ∃ c, (lackAltMsg m t).data.head? = some c ∧ c.isDigit = true := by
  obtain ⟨c, cs, hc, hd⟩ := natStr_head m
  have h1 : (natStr m).data.head? = some c := by rw [hc]; rfl
  refine ⟨c, ?_, hd⟩
  unfold lackAltMsg
  exact head?_append_of_head? _ _ _ (head?_append_of_head? _ _ _ (head?_append_of_head? _ _ _ h1))

lemma verifyAltDocx_ne_lackAlt (k m t : Nat) : verifyAltDocxMsg k ≠ lackAltMsg m t := by
  obtain ⟨c, hc, hd⟩ := lackAltMsg_head m t
  refine string_ne_of_head? _ _ 'F' c (verifyAltDocxMsg_head k) hc ?_
  intro h
  rw [← h] at hd
  exact absurd hd (by decide)

lemma verifyAltDocx_ne_allAlt (k t : Nat) : verifyAltDocxMsg k ≠ allAltMsg t :=
  string_ne_of_head? _ _ 'F' 'A' (verifyAltDocxMsg_head k) (allAltMsg_head t) (by decide)

lemma emptySlides_ne_verifyAltPptx (l : List Nat) (k : Nat) :
    emptySlidesMsg l ≠ verifyAltPptxMsg k :=
  string_ne_of_head? _ _ 'S' 'F' (emptySlidesMsg_head l) (verifyAltPptxMsg_head k) (by decide)

lemma emptySlides_ne_contrast (l : List Nat) : emptySlidesMsg l ≠ contrastMsg :=
  string_ne_of_head? _ _ 'S' 'C' (emptySlidesMsg_head l) (by decide) (by decide)

/-! ## Helper lemmas: the PDF heading-density check -/

lemma fewHeadings_mem_iff (d : PdfDoc) :
    fewHeadingsMsg ∈ check_pdf d
      ↔ (totalSpans d ≠ 0 ∧ (bigSpans d : ℚ) / (totalSpans d : ℚ) < 2 / 100) := by
  unfold check_pdf
  constructor
  · intro h
    rcases List.mem_append.mp h with h | h
    · rcases List.mem_append.mp h with h | h
      · split at h
        · exact absurd (List.mem_singleton.mp h) (by decide)
        · simp at h
      · split at h
        case isTrue hc => exact hc
        case isFalse => simp at h
    · exact absurd (List.mem_singleton.mp h) (by decide)
  · intro hc
    refine List.mem_append.mpr (Or.inl (List.mem_append.mpr (Or.inr ?_)))
    rw [if_pos hc]
    exact List.mem_singleton.mpr rfl

lemma densityLt_iff (b t : Nat) (h : 0 < t) :
    ((b : ℚ) / (t : ℚ) < 2 / 100) ↔ (50 * b < t) := by
  have ht : (0 : ℚ) < t := by exact_mod_cast h
  rw [div_lt_div_iff₀ ht (by norm_num : (0 : ℚ) < 100)]
  constructor
  · intro hlt
    have h2 : b * 100 < 2 * t := by exact_mod_cast hlt
    omega
  · intro hlt
    have h2 : b * 100 < 2 * t := by omega
    exact_mod_cast h2

lemma allSpans_stripWS (d : PdfDoc) :
    allSpans (stripWS d) = (allSpans d).filter (fun s => !(pyStrip s.text == "")) := by
  unfold allSpans stripWS
  simp only [List.flatMap_map, List.filter_flatMap]

lemma countedSpans_stripWS (d : PdfDoc) : countedSpans (stripWS d) = countedSpans d := by
  unfold countedSpans
  rw [allSpans_stripWS, List.filter_filter]
  simp only [Bool.and_self]

lemma totalSpans_stripWS (d : PdfDoc) : totalSpans (stripWS d) = totalSpans d := by
  unfold totalSpans
  rw [countedSpans_stripWS]

lemma bigSpans_stripWS (d : PdfDoc) : bigSpans (stripWS d) = bigSpans d := by
  unfold bigSpans
  rw [countedSpans_stripWS]

/-- Claim C4: the heading-density check is skipped when the counted span
total is zero, and otherwise the "headings may be missing" finding is
emitted exactly when the large-span ratio is strictly below 2/100; in
particular not at a ratio of exactly 0.02, and at 0.019 it is emitted
(see the witness). -/
theorem c4_density_threshold (d : PdfDoc) :
    (totalSpans d = 0 → fewHeadingsMsg ∉ check_pdf d)
    ∧ (0 < totalSpans d →
        (fewHeadingsMsg ∈ check_pdf d
          ↔ (bigSpans d : ℚ) / (totalSpans d : ℚ) < 2 / 100)) := by
  constructor
  · intro h0 hmem
    exact ((fewHeadings_mem_iff d).mp hmem).1 h0
  · intro hpos
    rw [fewHeadings_mem_iff]
    constructor
    · exact And.right
    · intro h
      exact ⟨by omega, h⟩

set_option maxRecDepth 100000 in
/-- Witness for C4: the finding is absent at large-span ratio exactly
1/50 = 0.02 and present at ratio 19/1000 = 0.019. -/
theorem c4_density_threshold_witness :
    fewHeadingsMsg ∉ check_pdf boundaryPdf ∧ fewHeadingsMsg ∈ check_pdf lowDensityPdf := by
  constructor
  · intro hmem
    have h := ((c4_density_threshold boundaryPdf).2 (by decide)).mp hmem
    rw [show totalSpans boundaryPdf = 50 from by decide,
        show bigSpans boundaryPdf = 1 from by decide] at h
    have h2 := (densityLt_iff 1 50 (by decide)).mp h
    omega
  · refine ((c4_density_threshold lowDensityPdf).2 (by decide)).mpr ?_
    rw [show totalSpans lowDensityPdf = 1000 from by decide,
        show bigSpans lowDensityPdf = 19 from by decide]
    exact (densityLt_iff 19 1000 (by decide)).mpr (by omega)

/-- Claim C10: whitespace-only spans are excluded from both
heading-density counters, so removing them changes nothing, and a
document whose spans are all whitespace-only is treated like one with
zero spans: the density check is skipped. -/
theorem c10_whitespace_spans (d : PdfDoc) :
    totalSpans (stripWS d) = totalSpans d
    ∧ bigSpans (stripWS d) = bigSpans d
    ∧ check_pdf (stripWS d) = check_pdf d
    ∧ ((∀ s ∈ allSpans d, pyStrip s.text = "") → fewHeadingsMsg ∉ check_pdf d) := by
  refine ⟨totalSpans_stripWS d, bigSpans_stripWS d, ?_, ?_⟩
  · unfold check_pdf
    rw [totalSpans_stripWS, bigSpans_stripWS]
    rfl
  · intro hws hmem
    have h0 : totalSpans d = 0 := by
      unfold totalSpans countedSpans
      rw [List.length_eq_zero]
      rw [List.filter_eq_nil_iff]
      intro s hs
      simp [hws s hs]
    exact ((fewHeadings_mem_iff d).mp hmem).1 h0

/-- Witness for C10: a PDF whose two spans are whitespace-only gets no
heading-density finding, and stripping those spans leaves its analysis
unchanged. -/
theorem c10_whitespace_spans_witness :
    fewHeadingsMsg ∉ check_pdf whitespacePdf
    ∧ check_pdf (stripWS whitespacePdf) = check_pdf whitespacePdf :=
  ⟨(c10_whitespace_spans whitespacePdf).2.2.2 (by decide),
   (c10_whitespace_spans whitespacePdf).2.2.1⟩

/-! ## Helper lemmas: the DOCX checks -/

lemma mem_vaguePart (d : DocxDoc) (x : String)
    (hx : x ∈ d.paragraphs.flatMap (fun p => p.runs.flatMap (fun r =>
      if vaguePhrases.contains (pyLower (pyStrip r)) then [vagueLinkMsg] else []))) :
    x = vagueLinkMsg := by
  rcases List.mem_flatMap.mp hx with ⟨p, _, hx⟩
  rcases List.mem_flatMap.mp hx with ⟨r, _, hx⟩
  split at hx
  · exact List.mem_singleton.mp hx
  · simp at hx

lemma styleHeads_iff (p : Paragraph) :
    styleHeads p = true ↔ ∃ s, p.style = some s ∧ pyStartsWith s headingLit = true := by
  unfold styleHeads
  cases hs : p.style <;> simp [hs]

lemma countP_if_singleton (c : String → Bool) (rs : List String) :
    List.countP (fun s => s == vagueLinkMsg)
        (rs.flatMap (fun r => if c r then [vagueLinkMsg] else []))
      = (rs.filter c).length := by
  induction rs with
  | nil => rfl
  | cons r rest ih =>
    rw [List.flatMap_cons, List.countP_append, ih]
    by_cases h : c r
    · rw [if_pos h, List.filter_cons_of_pos h]
      simp [List.countP_cons]
      omega
    · rw [if_neg h, List.filter_cons_of_neg h]
      simp

lemma countVague_paras (c : String → Bool) (ps : List Paragraph) :
    List.countP (fun s => s == vagueLinkMsg)
        (ps.flatMap (fun p => p.runs.flatMap (fun r => if c r then [vagueLinkMsg] else [])))
      = ((ps.flatMap Paragraph.runs).filter c).length := by
  induction ps with
  | nil => rfl
  | cons p rest ih =>
    rw [List.flatMap_cons, List.countP_append, ih, countP_if_singleton c p.runs,
      List.flatMap_cons, List.filter_append, List.length_append]

lemma countVague_check_docx (d : DocxDoc) :
    countVague (check_docx_basic d)
      = ((allRuns d).filter (fun r => vaguePhrases.contains (pyLower (pyStrip r)))).length := by
  unfold check_docx_basic countVague allRuns
  rw [List.countP_append, countVague_paras]
  have h1 : List.countP (fun s => s == vagueLinkMsg)
      (if d.paragraphs.any styleHeads then [] else [noHeadingsMsg]) = 0 := by
    split
    · rfl
    · decide
  rw [h1, Nat.zero_add]

/-- Claim C3: a word-processing document with some paragraph styled with
a `"Heading"`-prefixed style name never gets the "No headings found"
finding; one with no such paragraph always gets it. -/
theorem c3_heading_finding (d : DocxDoc) :
    ((∃ p ∈ d.paragraphs, ∃ s, p.style = some s ∧ pyStartsWith s headingLit = true) →
      noHeadingsMsg ∉ check_docx_basic d)
    ∧ ((∀ p ∈ d.paragraphs, ∀ s, p.style = some s → pyStartsWith s headingLit = false) →
      noHeadingsMsg ∈ check_docx_basic d) := by
  constructor
  · rintro ⟨p, hp, s, hs, hsw⟩ hmem
    unfold check_docx_basic at hmem
    rcases List.mem_append.mp hmem with h | h
    · have hany : d.paragraphs.any styleHeads = true :=
        List.any_eq_true.mpr ⟨p, hp, (styleHeads_iff p).mpr ⟨s, hs, hsw⟩⟩
      rw [if_pos hany] at h
      simp at h
    · exact absurd (mem_vaguePart d _ h) (by decide)
  · intro hall
    unfold check_docx_basic
    refine List.mem_append.mpr (Or.inl ?_)
    have hany : d.paragraphs.any styleHeads = false := by
      refine List.any_eq_false.mpr ?_
      intro p hp h
      obtain ⟨s, hs, hsw⟩ := (styleHeads_iff p).mp h
      rw [hall p hp s hs] at hsw
      exact absurd hsw (by decide)
    rw [if_neg (by simp [hany])]
    exact List.mem_singleton.mpr rfl

/-- Witness for C3: a document whose one paragraph is styled
"Heading 1" avoids the finding; one styled "Normal" receives it. -/
theorem c3_heading_finding_witness :
    noHeadingsMsg ∉ check_docx_basic quietDocx
    ∧ noHeadingsMsg ∈ check_docx_basic substringDocx := by
  constructor
  · exact (c3_heading_finding quietDocx).1
      ⟨{ style := some ("Heading 1"), runs := [] }, by decide, "Heading 1", rfl, by decide⟩
  · refine (c3_heading_finding substringDocx).2 ?_
    intro p hp s hs
    have hp' : p = { style := some ("Normal"), runs := ["please click here now"] } := by
      simpa [substringDocx] using hp
    subst hp'
    have hs' : s = "Normal" := (Option.some.inj hs).symm
    subst hs'
    decide

/-- Claim C5: the vague-link check emits one finding per run whose
trimmed, lowercased text is exactly one of the disallowed phrases, and
nothing for runs that merely contain such a phrase as a proper
substring (their normalized text is not in the set). -/
theorem c5_vague_exact (d : DocxDoc) :
    countVague (check_docx_basic d)
      = ((allRuns d).filter (fun r => vaguePhrases.contains (pyLower (pyStrip r)))).length
    ∧ ((∀ r ∈ allRuns d, vaguePhrases.contains (pyLower (pyStrip r)) = false) →
        countVague (check_docx_basic d) = 0) := by
  refine ⟨countVague_check_docx d, ?_⟩
  intro hall
  rw [countVague_check_docx d, List.length_eq_zero, List.filter_eq_nil_iff]
  intro r hr hmem
  rw [hall r hr] at hmem
  exact Bool.false_ne_true hmem

/-- Witness for C5: a run reading "please click here now" (which
contains the phrase "click here" as a proper substring) yields zero
vague-link findings, while a run reading "  Click Here " (exactly the
phrase after trim and lowercase) yields exactly one. -/
theorem c5_vague_exact_witness :
    countVague (check_docx_basic substringDocx) = 0
    ∧ countVague (check_docx_basic exactVagueDocx) = 1 := by
  constructor
  · exact (c5_vague_exact substringDocx).2 (by decide)
  · rw [(c5_vague_exact exactVagueDocx).1]
    decide

/-- Claim C6: when the structural alt-text path is unavailable and K > 0
image relationships exist, the alt-text check emits exactly the single
fallback advisory and never a missing-vs-present split finding. -/
theorem c6_alt_fallback (d : DocxDoc) (hnone : d.inlineShapes = none)
    (hpos : 0 < d.imageRelCount) :
    check_docx_missing_alt_text d = [verifyAltDocxMsg d.imageRelCount]
    ∧ (∀ m t, lackAltMsg m t ∉ check_docx_missing_alt_text d)
    ∧ (∀ t, allAltMsg t ∉ check_docx_missing_alt_text d) := by
  have heq : check_docx_missing_alt_text d = [verifyAltDocxMsg d.imageRelCount] := by
    unfold check_docx_missing_alt_text
    rw [hnone]
    exact if_pos hpos
  refine ⟨heq, ?_, ?_⟩
  · intro m t hmem
    rw [heq] at hmem
    exact verifyAltDocx_ne_lackAlt d.imageRelCount m t (List.mem_singleton.mp hmem).symm
  · intro t hmem
    rw [heq] at hmem
    exact verifyAltDocx_ne_allAlt d.imageRelCount t (List.mem_singleton.mp hmem).symm

/-- Witness for C6: a document whose structural path raises and which
has three image relationships gets exactly the fallback advisory. -/
theorem c6_alt_fallback_witness :
    check_docx_missing_alt_text fallbackDocx = [verifyAltDocxMsg 3] :=
  (c6_alt_fallback fallbackDocx rfl (by decide)).1

/-! ## Helper lemmas: the PPTX empty-slide collection loop -/

lemma mem_missingTitlesAux (l : List Slide) :
    ∀ (i k : Nat), k ∈ missingTitlesAux i l
      ↔ ∃ j, ∃ h : j < l.length, k = i + j ∧ slideBlank (l.get ⟨j, h⟩) = true := by
  induction l with
  | nil =>
    intro i k
    simp [missingTitlesAux]
  | cons s rest ih =>
    intro i k
    unfold missingTitlesAux
    rw [List.mem_append]
    constructor
    · rintro (h | h)
      · split at h
        case isTrue hb =>
          have hk : k = i := List.mem_singleton.mp h
          refine ⟨0, by simp, by omega, ?_⟩
          simpa using hb
        case isFalse => simp at h
      · obtain ⟨j, hj, hk, hb⟩ := (ih (i + 1) k).mp h
        refine ⟨j + 1, by simpa using hj, by omega, ?_⟩
        simpa using hb
    · rintro ⟨j, hj, hk, hb⟩
      cases j with
      | zero =>
        left
        rw [if_pos (by simpa using hb)]
        simp [hk]
      | succ j =>
        right
        refine (ih (i + 1) k).mpr ⟨j, by simpa using hj, by omega, ?_⟩
        simpa using hb

lemma missingTitlesAux_lb (l : List Slide) (i k : Nat)
    (h : k ∈ missingTitlesAux i l) : i ≤ k := by
  obtain ⟨j, _, hk, _⟩ := (mem_missingTitlesAux l i k).mp h
  omega

lemma missingTitlesAux_sorted (l : List Slide) :
    ∀ i : Nat, List.Sorted (· < ·) (missingTitlesAux i l) := by
  induction l with
  | nil =>
    intro i
    exact List.sorted_nil
  | cons s rest ih =>
    intro i
    unfold missingTitlesAux
    split
    · rw [List.singleton_append]
      refine List.sorted_cons.mpr ⟨?_, ih (i + 1)⟩
      intro b hb
      have := missingTitlesAux_lb rest (i + 1) b hb
      omega
    · rw [List.nil_append]
      exact ih (i + 1)

/-- Claim C7: the slide numbers in the "empty slides" finding are
strictly increasing and 1-indexed, are exactly the slides with no title
and no non-whitespace text, the finding is present when such slides
exist and absent otherwise. -/
theorem c7_empty_slides (p : PptxDoc) :
    List.Sorted (· < ·) (missingTitles p)
    ∧ (∀ k, k ∈ missingTitles p ↔
        1 ≤ k ∧ ∃ s, p.slides.get? (k - 1) = some s ∧ slideBlank s = true)
    ∧ (missingTitles p ≠ [] → emptySlidesMsg (missingTitles p) ∈ check_pptx p)
    ∧ (missingTitles p = [] → ∀ l, emptySlidesMsg l ∉ check_pptx p) := by
  refine ⟨missingTitlesAux_sorted p.slides 1, ?_, ?_, ?_⟩
  · intro k
    unfold missingTitles
    rw [mem_missingTitlesAux p.slides 1 k]
    constructor
    · rintro ⟨j, hj, hk, hb⟩
      refine ⟨by omega, p.slides.get ⟨j, hj⟩, ?_, hb⟩
      rw [show k - 1 = j by omega]
      exact List.get?_eq_get hj
    · rintro ⟨hk1, s, hget, hb⟩
      obtain ⟨h, hgeteq⟩ := List.get?_eq_some.mp hget
      refine ⟨k - 1, h, by omega, ?_⟩
      rw [hgeteq]
      exact hb
  · intro hne
    unfold check_pptx
    refine List.mem_append.mpr (Or.inl (List.mem_append.mpr (Or.inl ?_)))
    rw [if_neg hne]
    exact List.mem_singleton.mpr rfl
  · intro hemp l hmem
    unfold check_pptx at hmem
    rcases List.mem_append.mp hmem with h | h
    · rcases List.mem_append.mp h with h | h
      · rw [if_pos hemp] at h
        simp at h
      · split at h
        · exact emptySlides_ne_verifyAltPptx l _ (List.mem_singleton.mp h)
        · simp at h
    · exact emptySlides_ne_contrast l (List.mem_singleton.mp h)

/-- Witness for C7: in a three-slide presentation where only slide 2 has
neither title nor non-whitespace text, the computed list is `[2]` and
the finding is emitted. -/
theorem c7_empty_slides_witness :
    missingTitles threeSlidePptx = [2]
    ∧ emptySlidesMsg (missingTitles threeSlidePptx) ∈ check_pptx threeSlidePptx :=
  ⟨by decide, (c7_empty_slides threeSlidePptx).2.2.1 (by decide)⟩

/-! ## Helper lemmas: the batch orchestrator -/

lemma processFile_ok (f : UploadedFile) (l : List String) (h : rawIssues f = .ok l) :
    processFile f = .ok { file := f.name, findings := if l = [] then [sentinelMsg] else l } := by
  unfold processFile
  rw [h]
  rfl

lemma processFile_ok_inv (f : UploadedFile) (r : AnalysisRecord)
    (h : processFile f = .ok r) :
    ∃ l, rawIssues f = .ok l
      ∧ r = { file := f.name, findings := if l = [] then [sentinelMsg] else l } := by
  unfold processFile at h
  cases hraw : rawIssues f with
  | error e =>
    rw [hraw] at h
    exact Except.noConfusion h
  | ok l =>
    rw [hraw] at h
    exact ⟨l, rfl, (Except.ok.inj h).symm⟩

lemma processFile_findings_ne_nil (f : UploadedFile) (r : AnalysisRecord)
    (h : processFile f = .ok r) : r.findings ≠ [] := by
  obtain ⟨l, -, rfl⟩ := processFile_ok_inv f r h
  dsimp only
  split
  · simp
  · assumption

lemma processFile_file (f : UploadedFile) (r : AnalysisRecord)
    (h : processFile f = .ok r) : r.file = f.name := by
  obtain ⟨l, -, rfl⟩ := processFile_ok_inv f r h
  rfl

/-- Claim C1 (code bug): the processing loop contains no handler, so a
single malformed document aborts the whole batch: with a malformed PDF
first, the batch result is a `MalformedDocument` error and no record —
neither for the malformed file nor for the later spreadsheet upload —
is ever produced, where the spec requires the failure to become a
finding and processing to continue. -/
theorem c1_batch_aborts_on_malformed :
    processBatch [malformedPdfFile, xlsxFile] = Except.error MalformedDocument.malformed := by
  rfl

/-- Claim C2: every produced record has a non-empty findings list, and
whenever the analyzers return zero findings the sentinel is
substituted. -/
theorem c2_findings_nonempty :
    (∀ fs rs, processBatch fs = Except.ok rs → ∀ r ∈ rs, r.findings ≠ [])
    ∧ (∀ f r, processFile f = Except.ok r → rawIssues f = Except.ok [] →
        r.findings = [sentinelMsg]) := by
  constructor
  · intro fs
    induction fs with
    | nil =>
      intro rs h r hr
      injection h with h'
      rw [← h'] at hr
      simp at hr
    | cons f fs ih =>
      intro rs h r hr
      unfold processBatch at h
      cases hpf : processFile f with
      | error e =>
        rw [hpf] at h
        exact Except.noConfusion h
      | ok r0 =>
        rw [hpf] at h
        cases hpb : processBatch fs with
        | error e =>
          rw [hpb] at h
          exact Except.noConfusion h
        | ok rs0 =>
          rw [hpb] at h
          injection h with h'
          rw [← h'] at hr
          rcases List.mem_cons.mp hr with rfl | hr'
          · exact processFile_findings_ne_nil f r hpf
          · exact ih rs0 hpb r hr'
  · intro f r hpf hraw
    obtain ⟨l, hraw', hrec⟩ := processFile_ok_inv f r hpf
    have hl : l = [] := by
      rw [hraw'] at hraw
      exact Except.ok.inj hraw
    subst hl
    rw [hrec]
    simp

/-- Witness for C2: the spreadsheet upload gets a non-empty findings
list, and a DOCX for which no check fires gets exactly the sentinel. -/
theorem c2_findings_nonempty_witness :
    ({ file := "report.xlsx", findings := [unsupportedMsg] } : AnalysisRecord).findings ≠ []
    ∧ ({ file := "quiet.docx", findings := [sentinelMsg] } : AnalysisRecord).findings
        = [sentinelMsg] := by
  constructor
  · exact c2_findings_nonempty.1 [xlsxFile]
      [{ file := "report.xlsx", findings := [unsupportedMsg] }] (by rfl) _
      (List.mem_singleton.mpr rfl)
  · exact c2_findings_nonempty.2 quietDocxFile _ (by rfl) (by rfl)

/-- Claim C8: a file whose extension matches none of the three formats
yields the single finding "Unsupported file type.", and that is the
whole `Issues` string. -/
theorem c8_unsupported_type (f : UploadedFile)
    (h1 : isDocxName f.name = false) (h2 : isPptxName f.name = false)
    (h3 : isPdfName f.name = false) :
    ∃ r, processFile f = Except.ok r ∧ r.findings = [unsupportedMsg]
      ∧ issuesString r = "Unsupported file type." := by
  have hraw : rawIssues f = .ok [unsupportedMsg] := by
    unfold rawIssues
    rw [if_neg (by simp [h1]), if_neg (by simp [h2]), if_neg (by simp [h3])]
  refine ⟨{ file := f.name, findings := [unsupportedMsg] }, ?_, rfl, rfl⟩
  have h := processFile_ok f [unsupportedMsg] hraw
  simpa using h

/-- Witness for C8: the upload named `report.xlsx`. -/
theorem c8_unsupported_type_witness :
    ∃ r, processFile xlsxFile = Except.ok r ∧ r.findings = [unsupportedMsg]
      ∧ issuesString r = "Unsupported file type." :=
  c8_unsupported_type xlsxFile (by decide) (by decide) (by decide)

/-- Claim C9: the pipeline is a pure function of the uploaded bytes and
names — rerunning it on the same input gives the same table — and on
success the records keep the upload order (their file column is exactly
the upload name sequence). -/
theorem c9_deterministic (fs : List UploadedFile) :
    processBatch fs = processBatch fs
    ∧ (∀ rs, processBatch fs = Except.ok rs →
        rs.map AnalysisRecord.file = fs.map UploadedFile.name) := by
  refine ⟨rfl, ?_⟩
  induction fs with
  | nil =>
    intro rs h
    injection h with h'
    rw [← h']
    rfl
  | cons f fs ih =>
    intro rs h
    unfold processBatch at h
    cases hpf : processFile f with
    | error e =>
      rw [hpf] at h
      exact Except.noConfusion h
    | ok r =>
      rw [hpf] at h
      cases hpb : processBatch fs with
      | error e =>
        rw [hpb] at h
        exact Except.noConfusion h
      | ok rs0 =>
        rw [hpb] at h
        injection h with h'
        rw [← h']
        rw [List.map_cons, List.map_cons, processFile_file f r hpf, ih rs0 hpb]

/-- Witness for C9: a two-file batch keeps upload order in its records. -/
theorem c9_deterministic_witness :
    List.map AnalysisRecord.file
        [{ file := "report.xlsx", findings := [unsupportedMsg] },
         { file := "quiet.docx", findings := [sentinelMsg] }]
      = List.map UploadedFile.name [xlsxFile, quietDocxFile] :=
  (c9_deterministic [xlsxFile, quietDocxFile]).2 _ (by rfl)

end PreFlight
